import Mathlib

/-!
Shallow embedding of `src/dati_playground/precommit_validators.py`.

The module has three functions:
* `get_shacl_graph` (lines 19-26): cached loader for a SHACL constraint
  graph, demanding an absolute path;
* `validate_shacl` (lines 29-54): walks up to `MAX_DEPTH = 5` ancestor
  directories looking for `rules.shacl`, then calls the external engine
  `pyshacl.validate`, exiting the process with code 1 on an invalid result;
* `validate_directory` (lines 57-123): compares the `latest` subdirectory
  of an ontology path against the highest-versioned sibling directory,
  appending human-readable discrepancy strings to a caller-supplied list.

Filesystem queries, the external validation engine, and the libraries
`packaging.version`, `filecmp` and `difflib` are modelled explicitly below;
each model carries a comment naming the Python behaviour it reflects.
-/

namespace DatiPlayground

/-! ### Model of `packaging.version.Version`, restricted to plain numeric
release segments (`N(.N)*`), the only shape the claims exercise.
`Version("1.0")` parses the dot-separated segments into a release tuple of
integers; comparison strips trailing zeros from the release tuple and then
compares tuples lexicographically (PEP 440 precedence for release-only
versions). Other PEP 440 forms (epochs, pre/post/dev/local segments) are out
of scope of this development. -/

/-- Digits of a numeric segment to its value; `none` when the segment is
empty or contains a non-digit (then `Version(x)` raises `InvalidVersion`). -/
def digitsToNat : List Char → Option Nat
  | [] => none
  | cs =>
    if cs.all (fun c => c.isDigit) then
      some (cs.foldl (fun a c => a * 10 + (c.toNat - 48)) 0)
    else
      none

/-- Split a character list at each dot, as Python `"x.y".split(".")`. -/
def splitDots : List Char → List (List Char)
  | [] => [[]]
  | c :: rest =>
    if c = '.' then
      [] :: splitDots rest
    else
      match splitDots rest with
      | [] => [[c]]
      | g :: gs => (c :: g) :: gs

/-- Release tuple of a version string, `none` on parse failure. -/
def parseVersion (s : String) : Option (List Nat) :=
  (splitDots s.data).mapM digitsToNat

/-- PEP 440 comparison key of a release tuple: trailing zeros removed. -/
def releaseKey (l : List Nat) : List Nat :=
  ((l.reverse).dropWhile (fun x => x = 0)).reverse

/-- Python tuple-of-int `<`: lexicographic, a strict prefix is smaller. -/
def tupleLt : List Nat → List Nat → Bool
  | [], [] => false
  | [], _ :: _ => true
  | _ :: _, [] => false
  | a :: as_, b :: bs =>
    if a < b then true
    else if b < a then false
    else tupleLt as_ bs

/-- `Version(a) < Version(b)` for release-only versions. -/
def versionLt (a b : List Nat) : Bool :=
  tupleLt (releaseKey a) (releaseKey b)

/-- `sorted(versions, key=lambda v: v[0])[-1][1]` on a non-empty list of
(release, name) pairs: Python sort is stable, so the last element of the
sorted list is the last-occurring pair whose key is maximal. -/
def lastMaxName : (List Nat × String) → List (List Nat × String) → String
  | best, [] => best.2
  | best, v :: vs => lastMaxName (if versionLt v.1 best.1 then best else v) vs

/-- The name selected by lines 69-70 from the parsed `(Version(x), x)`
pairs; the empty-list case is unreachable behind the guard at line 65. -/
def selectedVersion : List (List Nat × String) → String
  | [] => ""
  | v :: vs => lastMaxName v vs

/-! ### Model of the filesystem as seen by `validate_directory`.
Each field answers one family of filesystem queries the function makes; the
answers are given as data because each query is a separate call into the
OS (the code itself nowhere enforces consistency between them, see the
`assert` at line 81). -/

/-- A record of log-call arguments for `log.error(diffs)` at line 119: the
unified diff `difflib.unified_diff(f_latest.readlines(),
f_version.readlines(), fromfile=left_path, tofile=right_path)` is a pure
function of these four values, so the record stands for the logged diff. -/
structure DiffLog where
  fromfile : String
  tofile : String
  leftText : String
  rightText : String
deriving DecidableEq, Repr

/-- Filesystem snapshot answers for one `validate_directory` call. -/
structure DirFS where
  /-- names from `ontology_path.glob(\x22*/\x22)` that are directories,
  in listing order (may include `latest`). -/
  subdirs : List String
  /-- `(ontology_path / \x22latest\x22).exists()` at line 77. -/
  latestExists : Bool
  /-- `(ontology_path / name).exists()` at line 81. -/
  versionDirExists : String → Bool
  /-- file names from `left_dir.glob(\x22*\x22)` at line 83. -/
  latestFiles : List String
  /-- file names from `right_dir.glob(\x22*\x22)` at line 84. -/
  versionFiles : String → List String
  /-- whether `filecmp` can read both copies of a common file name
  (`False` puts the name in the `errs` list of `cmpfiles`). -/
  readableBoth : String → Bool
  /-- byte content of `left_dir / name`, as a character string. -/
  latestContent : String → String
  /-- byte content of `(ontology_path / version) / name`. -/
  versionContent : String → String → String

/-- Python `set(...)` from a list: membership set; iteration order of a
Python set is unspecified, the model fixes first-occurrence order. The
claims below never depend on this order. -/
def pySet (l : List String) : List String :=
  l.foldl (fun acc x => if x ∈ acc then acc else acc ++ [x]) []

/-- Python set difference `a - b`, in the model order of `a`. -/
def pyDiff (a b : List String) : List String :=
  a.filter (fun x => decide (x ∉ b))

/-- Python set intersection `a & b`, in the model order of `a`. -/
def pyInter (a b : List String) : List String :=
  a.filter (fun x => decide (x ∈ b))

/-- `f"No versioned directories found for {ontology_path}"` (line 66). -/
def noVersionedMsg (p : String) : String :=
  "No versioned directories found for " ++ p

/-- `f"ERROR: can't find {left_dir}"` (line 78). -/
def cantFindMsg (leftDir : String) : String :=
  "ERROR: can\x27t find " ++ leftDir

/-- `f"Only in latest/: {', '.join(...)}"` (line 88). -/
def onlyLatestMsg (files : List String) : String :=
  "Only in latest/: " ++ String.intercalate ", " files

/-- `f"Only in {last_version}/: {', '.join(...)}"` (lines 92-94). -/
def onlyVersionMsg (ver : String) (files : List String) : String :=
  "Only in " ++ ver ++ "/: " ++ String.intercalate ", " files

/-- `f"ERROR: files are different: {left_path} {right_path}"` (line 118). -/
def filesDifferentMsg (leftPath rightPath : String) : String :=
  "ERROR: files are different: " ++ leftPath ++ " " ++ rightPath

/-- `f"ERROR: couldn't check these files: {...} (permission issues?)"`
(lines 121-123). -/
def couldntCheckMsg (files : List String) : String :=
  "ERROR: couldn\x27t check these files: " ++ String.intercalate ", " files
    ++ " (permission issues?)"

/-- Python 3 text-mode reading uses universal newlines: `\r\n` and lone
`\r` are translated to `\n` before `readlines()` splits the text. Two
files produce equal `readlines()` lists exactly when their translated
texts are equal, and `difflib.unified_diff` yields an empty string exactly
when the two line lists are equal. -/
def unlChars : List Char → List Char
  | [] => []
  | '\r' :: '\n' :: rest => '\n' :: unlChars rest
  | '\r' :: rest => '\n' :: unlChars rest
  | c :: rest => c :: unlChars rest

/-- Universal-newline translation of a whole file content. -/
def universalNewlines (s : String) : String :=
  String.mk (unlChars s.data)

/-- How the call ended: normal return, `AssertionError` from line 81, or
`packaging.version.InvalidVersion` escaping from line 69. -/
inductive DirStatus where
  | ok
  | assertFail
  | invalidVersion
deriving DecidableEq, Repr

/-- Observable outcome of `validate_directory`: the caller's error list
after the call (its state at the raise point when the call aborts) and the
`log.error` diff records emitted at line 119. -/
structure DirOutcome where
  status : DirStatus
  errors : List String
  logs : List DiffLog
deriving DecidableEq, Repr

/-- One iteration of the `for fname in mismatch` loop (lines 104-119):
compute the unified diff of the two text-mode line lists; when it is
non-empty, append the error entry and log the diff. -/
def diffStep (fs : DirFS) (ver leftDir rightDir : String)
    (acc : List String × List DiffLog) (f : String) :
    List String × List DiffLog :=
  if universalNewlines (fs.latestContent f)
      = universalNewlines (fs.versionContent ver f) then
    acc
  else
    (acc.1 ++ [filesDifferentMsg (leftDir ++ "/" ++ f) (rightDir ++ "/" ++ f)],
     acc.2 ++ [⟨leftDir ++ "/" ++ f, rightDir ++ "/" ++ f,
               fs.latestContent f, fs.versionContent ver f⟩])

/-- Lines 58-62: subdirectory names other than `latest`. -/
def foldersOf (fs : DirFS) : List String :=
  fs.subdirs.filter (fun x => x != "latest")

/-- Line 69: `[(Version(x), x) for x in folders]`; `none` when some name
fails to parse (`InvalidVersion` escapes). -/
def versionsOf (fs : DirFS) : Option (List (List Nat × String)) :=
  (foldersOf fs).mapM (fun x => (parseVersion x).map (fun v => (v, x)))

/-- Lines 83-94: the filename set comparison. `left`/`right` are the name
sets of the two directories; a non-empty `left - right` appends the
`Only in latest/` message, a non-empty `right - left` the
`Only in {version}/` message. -/
def setPhaseErrors (fs : DirFS) (ver : String) (errors : List String) :
    List String :=
  let left := pySet fs.latestFiles
  let right := pySet (fs.versionFiles ver)
  let errors1 :=
    if pyDiff left right = [] then errors
    else errors ++ [onlyLatestMsg (pyDiff left right)]
  if pyDiff right left = [] then errors1
  else errors1 ++ [onlyVersionMsg ver (pyDiff right left)]

/-- Lines 96-123: `if right & left:` guards the `cmpfiles` comparison of
the common names; mismatches and unreadable names keep the iteration
order of `common` (the model order of `right & left`). -/
def comparePhase (p : String) (fs : DirFS) (ver : String)
    (errors : List String) : DirOutcome :=
  let leftDir := p ++ "/latest"
  let rightDir := p ++ "/" ++ ver
  let errors2 := setPhaseErrors fs ver errors
  let common := pyInter (pySet (fs.versionFiles ver)) (pySet fs.latestFiles)
  if common = [] then
    ⟨.ok, errors2, []⟩
  else
    let mismatch := common.filter
      (fun f => fs.readableBoth f && (fs.latestContent f != fs.versionContent ver f))
    let errsList := common.filter (fun f => !fs.readableBoth f)
    let res := mismatch.foldl (diffStep fs ver leftDir rightDir) (errors2, [])
    ⟨.ok,
     if errsList = [] then res.1 else res.1 ++ [couldntCheckMsg errsList],
     res.2⟩

/-- `validate_directory(ontology_path, errors)` (lines 57-123). The
ontology path is `p`; the caller's list is threaded and returned. -/
def validate_directory (p : String) (fs : DirFS) (errors : List String) :
    DirOutcome :=
  if foldersOf fs = [] then
    ⟨.ok, errors ++ [noVersionedMsg p], []⟩
  else
    match versionsOf fs with
    | none => ⟨.invalidVersion, errors, []⟩
    | some vs =>
      let ver := selectedVersion vs
      if fs.latestExists then
        if fs.versionDirExists ver then
          comparePhase p fs ver errors
        else
          ⟨.assertFail, errors, []⟩
      else
        ⟨.ok, errors ++ [cantFindMsg (p ++ "/latest")], []⟩

/-! ### Model of `get_shacl_graph` (lines 19-26).
`Path(absolute_path).is_absolute()` on POSIX is true exactly when the path
string starts with `/`. The Turtle parse `Graph().parse(...)` is the
external `rdflib` library, modelled as an abstract total function `parse`
from the path to the resulting graph; the `lru_cache` wrapper is
functionally transparent for a pure loader and is not modelled. -/

/-- `Path(s).is_absolute()` on POSIX: the path starts with `/`. -/
def pathIsAbsolute (s : String) : Bool :=
  match s.data with
  | [] => false
  | c :: _ => c = '/'

/-- `f"{absolute_path} is not an absolute path"` (line 22). -/
def notAbsoluteMsg (p : String) : String :=
  p ++ " is not an absolute path"

/-- `get_shacl_graph(absolute_path)`: raise `ValueError` (modelled as
`Except.error` carrying the message) on a relative path, otherwise parse
and return the graph. -/
def get_shacl_graph {G : Type} (parse : String → G) (p : String) :
    Except String G :=
  if pathIsAbsolute p then
    Except.ok (parse p)
  else
    Except.error (notAbsoluteMsg p)

/-! ### Model of `validate_shacl` (lines 29-54).
The ancestor walk and the external engine are driven by an environment:
`parent` is `Path.parent`, `hasRules d` is `(d / "rules.shacl").exists()`,
`basedir` is the module-level `Path(__file__).parent`, `loadGraph d` is the
graph `get_shacl_graph` returns for the rules file in `d` (the path passed
is made absolute by `.absolute()`, so the `ValueError` branch is
unreachable there), and `engineRaises g` / `engineValid g` describe what
`pyshacl.validate(file, shacl_graph=g, advanced=True)` does for the file
under validation when handed constraint graph `g`. -/

/-- `MAX_DEPTH` (line 15). -/
def MAX_DEPTH : Nat := 5

/-- Environment of one `validate_shacl` call, for the fixed file under
validation. -/
structure ShaclEnv (G : Type) where
  parent : String → String
  hasRules : String → Bool
  basedir : String
  loadGraph : String → G
  engineRaises : Option G → Bool
  engineValid : Option G → Bool

/-- The `for _ in range(MAX_DEPTH)` loop of lines 34-43: starting from the
file's parent directory, return the first ancestor (within the fuel bound)
holding a `rules.shacl`, stopping early at `basedir`. -/
def findRulesDir {G : Type} (env : ShaclEnv G) : Nat → String → Option String
  | 0, _ => none
  | n + 1, d =>
    if env.hasRules d then some d
    else if d = env.basedir then none
    else findRulesDir env n (env.parent d)

/-- The constraint graph handed to the engine at line 47: loaded from the
found rules directory, or `None`. -/
def graphFor {G : Type} (env : ShaclEnv G) (fileParent : String) : Option G :=
  (findRulesDir env MAX_DEPTH fileParent).map env.loadGraph

/-- How `validate_shacl` ends. `exit(1)` raises `SystemExit`, which the
`except Exception` clause at line 52 does not catch, so it terminates the
process with code 1; an engine exception is logged and re-raised. -/
inductive ShaclOutcome where
  | returnsNormally
  | exitsOne
  | raisesError
deriving DecidableEq, Repr

/-- Outcome of `pyshacl.validate` handed graph `g` (lines 44-54): an
exception re-raises; an invalid result exits with code 1; a valid result
falls through. -/
def engineOutcome {G : Type} (env : ShaclEnv G) (g : Option G) : ShaclOutcome :=
  if env.engineRaises g then ShaclOutcome.raisesError
  else if env.engineValid g then ShaclOutcome.returnsNormally
  else ShaclOutcome.exitsOne

/-- Observable run of `validate_shacl(file)`: which graph reached the
engine call and how the call ended. -/
structure ShaclRun (G : Type) where
  graphUsed : Option G
  outcome : ShaclOutcome

/-- `validate_shacl(file)` (lines 29-54), `fileParent` being
`Path(file).parent`. -/
def validate_shacl {G : Type} (env : ShaclEnv G) (fileParent : String) :
    ShaclRun G :=
  let g := graphFor env fileParent
  ⟨g, engineOutcome env g⟩

/-! ### Concrete instances for evaluating the model. -/

/-- A filesystem template: one version directory `1.0`, an existing
`latest`, no files, everything readable. -/
def baseFS : DirFS where
  subdirs := ["1.0"]
  latestExists := true
  versionDirExists := fun _ => true
  latestFiles := []
  versionFiles := fun _ => []
  readableBoth := fun _ => true
  latestContent := fun _ => ""
  versionContent := fun _ _ => ""

/-- Both directories hold `a.txt`; the bytes differ only in the line
ending (`x\r\n` against `x\n`), so text-mode `readlines()` coincide. -/
def crlfFS : DirFS :=
  { baseFS with
    latestFiles := ["a.txt"],
    versionFiles := fun _ => ["a.txt"],
    latestContent := fun _ => "x\r\n",
    versionContent := fun _ _ => "x\n" }

/-- Both directories hold `a.txt` with genuinely different text. -/
def mismatchFS : DirFS :=
  { crlfFS with versionContent := fun _ _ => "y\n" }

/-- Both directories hold a byte-identical `a.txt` that `filecmp` cannot
read (permission denied). -/
def unreadableFS : DirFS :=
  { baseFS with
    latestFiles := ["a.txt"],
    versionFiles := fun _ => ["a.txt"],
    latestContent := fun _ => "x",
    versionContent := fun _ _ => "x",
    readableBoth := fun _ => false }

/-- Both directories hold a byte-identical, readable `a.txt`. -/
def identicalFS : DirFS :=
  { unreadableFS with readableBoth := fun _ => true }

/-- `latest` holds only `a.txt`, the version directory only `b.txt`. -/
def skewFS : DirFS :=
  { baseFS with latestFiles := ["a.txt"], versionFiles := fun _ => ["b.txt"] }

/-- Versioned folders exist but `latest` does not. -/
def noLatestFS : DirFS :=
  { baseFS with latestExists := false }

/-- `latest` exists but the existence re-query for the selected version
directory answers no. -/
def noRightFS : DirFS :=
  { baseFS with versionDirExists := fun _ => false }

/-- The ontology path holds nothing but a `latest` directory. -/
def onlyLatestDirFS : DirFS :=
  { baseFS with subdirs := ["latest"] }

/-- Subdirectories as given; only a directory named `10.0` exists when
re-queried, so reaching the comparison shows `10.0` was selected. -/
def versionChoiceFS (subdirs : List String) : DirFS :=
  { baseFS with subdirs := subdirs, versionDirExists := fun v => v == "10.0" }

/-- A SHACL environment with no `rules.shacl` anywhere, a well-behaved
engine that accepts the file. -/
def noRulesEnv : ShaclEnv Nat where
  parent := fun d => d
  hasRules := fun _ => false
  basedir := "/base"
  loadGraph := fun _ => 0
  engineRaises := fun _ => false
  engineValid := fun _ => true

/-- Like `noRulesEnv`, but the engine reports the file invalid. -/
def invalidFileEnv : ShaclEnv Nat :=
  { noRulesEnv with engineValid := fun _ => false }

/-! ### Helper lemmas about the set model and the mismatch loop. -/

theorem mem_pySet_foldl (l acc : List String) (x : String) :
    x ∈ l.foldl (fun acc y => if y ∈ acc then acc else acc ++ [y]) acc ↔
      x ∈ acc ∨ x ∈ l := by
  induction l generalizing acc with
  | nil => simp
  | cons y ys ih =>
    simp only [List.foldl_cons]
    rw [ih]
    by_cases h : y ∈ acc
    · simp only [if_pos h, List.mem_cons]
      constructor
      · rintro (hx | hx)
        · exact Or.inl hx
        · exact Or.inr (Or.inr hx)
      · rintro (hx | rfl | hx)
        · exact Or.inl hx
        · exact Or.inl h
        · exact Or.inr hx
    · simp only [if_neg h, List.mem_append, List.mem_singleton, List.mem_cons]
      tauto

theorem mem_pySet (l : List String) (x : String) : x ∈ pySet l ↔ x ∈ l := by
  unfold pySet
  rw [mem_pySet_foldl]
  simp

theorem pyDiff_eq_nil (a b : List String) (h : ∀ x ∈ a, x ∈ b) :
    pyDiff a b = [] := by
  unfold pyDiff
  rw [List.filter_eq_nil_iff]
  intro x hx
  simp [h x hx]

theorem mem_pyInter (a b : List String) (x : String) :
    x ∈ pyInter a b ↔ x ∈ a ∧ x ∈ b := by
  unfold pyInter
  rw [List.mem_filter]
  simp

theorem diffStep_extends (fs : DirFS) (ver ld rd : String)
    (acc : List String × List DiffLog) (f : String) :
    acc.1 <+: (diffStep fs ver ld rd acc f).1 ∧
      acc.2 <+: (diffStep fs ver ld rd acc f).2 := by
  unfold diffStep
  split
  · exact ⟨List.prefix_refl _, List.prefix_refl _⟩
  · exact ⟨List.prefix_append _ _, List.prefix_append _ _⟩

theorem foldl_diffStep_extends (fs : DirFS) (ver ld rd : String)
    (l : List String) (acc : List String × List DiffLog) :
    acc.1 <+: (l.foldl (diffStep fs ver ld rd) acc).1 ∧
      acc.2 <+: (l.foldl (diffStep fs ver ld rd) acc).2 := by
  induction l generalizing acc with
  | nil => exact ⟨List.prefix_refl _, List.prefix_refl _⟩
  | cons x xs ih =>
    simp only [List.foldl_cons]
    obtain ⟨h1, h2⟩ := diffStep_extends fs ver ld rd acc x
    obtain ⟨h3, h4⟩ := ih (diffStep fs ver ld rd acc x)
    exact ⟨h1.trans h3, h2.trans h4⟩

theorem foldl_diffStep_mem (fs : DirFS) (ver ld rd : String)
    (l : List String) (acc : List String × List DiffLog) (f : String)
    (hf : f ∈ l)
    (hd : universalNewlines (fs.latestContent f) ≠
      universalNewlines (fs.versionContent ver f)) :
    filesDifferentMsg (ld ++ "/" ++ f) (rd ++ "/" ++ f) ∈
        (l.foldl (diffStep fs ver ld rd) acc).1 ∧
      DiffLog.mk (ld ++ "/" ++ f) (rd ++ "/" ++ f) (fs.latestContent f)
          (fs.versionContent ver f) ∈
        (l.foldl (diffStep fs ver ld rd) acc).2 := by
  induction l generalizing acc with
  | nil => cases hf
  | cons x xs ih =>
    simp only [List.foldl_cons]
    rcases List.mem_cons.mp hf with rfl | hmem
    · have hstep : diffStep fs ver ld rd acc f =
          (acc.1 ++ [filesDifferentMsg (ld ++ "/" ++ f) (rd ++ "/" ++ f)],
           acc.2 ++ [DiffLog.mk (ld ++ "/" ++ f) (rd ++ "/" ++ f)
             (fs.latestContent f) (fs.versionContent ver f)]) := by
        unfold diffStep
        rw [if_neg hd]
      obtain ⟨h1, h2⟩ := foldl_diffStep_extends fs ver ld rd xs
        (diffStep fs ver ld rd acc f)
      rw [hstep] at h1 h2 ⊢
      constructor
      · exact h1.subset (List.mem_append.mpr (Or.inr (List.mem_singleton.mpr rfl)))
      · exact h2.subset (List.mem_append.mpr (Or.inr (List.mem_singleton.mpr rfl)))
    · exact ih _ hmem

theorem setPhaseErrors_extends (fs : DirFS) (ver : String)
    (errors : List String) :
    errors <+: setPhaseErrors fs ver errors := by
  simp only [setPhaseErrors]
  split <;> split <;>
    first
    | exact List.prefix_refl _
    | exact List.prefix_append _ _
    | exact (List.prefix_append _ _).trans (List.prefix_append _ _)

theorem comparePhase_extends (p : String) (fs : DirFS) (ver : String)
    (errors : List String) :
    errors <+: (comparePhase p fs ver errors).errors := by
  simp only [comparePhase]
  split
  · exact setPhaseErrors_extends fs ver errors
  · have h := (foldl_diffStep_extends fs ver (p ++ "/latest") (p ++ "/" ++ ver)
      ((pyInter (pySet (fs.versionFiles ver)) (pySet fs.latestFiles)).filter
        (fun f => fs.readableBoth f
          && (fs.latestContent f != fs.versionContent ver f)))
      (setPhaseErrors fs ver errors, [])).1
    have h0 := setPhaseErrors_extends fs ver errors
    split
    · exact h0.trans h
    · exact h0.trans (h.trans (List.prefix_append _ _))

theorem setPhaseErrors_le_comparePhase (p : String) (fs : DirFS) (ver : String)
    (errors : List String) :
    setPhaseErrors fs ver errors <+: (comparePhase p fs ver errors).errors := by
  simp only [comparePhase]
  split
  · exact List.prefix_refl _
  · have h := (foldl_diffStep_extends fs ver (p ++ "/latest") (p ++ "/" ++ ver)
      ((pyInter (pySet (fs.versionFiles ver)) (pySet fs.latestFiles)).filter
        (fun f => fs.readableBoth f
          && (fs.latestContent f != fs.versionContent ver f)))
      (setPhaseErrors fs ver errors, [])).1
    split
    · exact h
    · exact h.trans (List.prefix_append _ _)

theorem mem_setPhaseErrors_onlyLatest (fs : DirFS) (ver : String)
    (errors : List String)
    (h : pyDiff (pySet fs.latestFiles) (pySet (fs.versionFiles ver)) ≠ []) :
    onlyLatestMsg (pyDiff (pySet fs.latestFiles) (pySet (fs.versionFiles ver)))
      ∈ setPhaseErrors fs ver errors := by
  simp only [setPhaseErrors]
  split
  · exact List.mem_append.mpr (Or.inr (List.mem_singleton.mpr rfl))
  · exact List.mem_append.mpr
      (Or.inl (List.mem_append.mpr (Or.inr (List.mem_singleton.mpr rfl))))

theorem mem_setPhaseErrors_onlyVersion (fs : DirFS) (ver : String)
    (errors : List String)
    (h : pyDiff (pySet (fs.versionFiles ver)) (pySet fs.latestFiles) ≠ []) :
    onlyVersionMsg ver (pyDiff (pySet (fs.versionFiles ver)) (pySet fs.latestFiles))
      ∈ setPhaseErrors fs ver errors := by
  simp only [setPhaseErrors]
  rw [if_neg h]
  exact List.mem_append.mpr (Or.inr (List.mem_singleton.mpr rfl))

theorem setPhaseErrors_eq_of_nil (fs : DirFS) (ver : String)
    (errors : List String)
    (h1 : pyDiff (pySet fs.latestFiles) (pySet (fs.versionFiles ver)) = [])
    (h2 : pyDiff (pySet (fs.versionFiles ver)) (pySet fs.latestFiles) = []) :
    setPhaseErrors fs ver errors = errors := by
  simp only [setPhaseErrors]
  rw [if_pos h2, if_pos h1]

theorem comparePhase_frame (p : String) (fs : DirFS) (ver : String)
    (errors : List String)
    (hset : ∀ f, f ∈ fs.latestFiles ↔ f ∈ fs.versionFiles ver)
    (hread : ∀ f, f ∈ fs.latestFiles → f ∈ fs.versionFiles ver →
      fs.readableBoth f = true)
    (hsame : ∀ f, f ∈ fs.latestFiles → f ∈ fs.versionFiles ver →
      fs.latestContent f = fs.versionContent ver f) :
    comparePhase p fs ver errors = ⟨DirStatus.ok, errors, []⟩ := by
  have h1 : pyDiff (pySet fs.latestFiles) (pySet (fs.versionFiles ver)) = [] :=
    pyDiff_eq_nil _ _ (fun x hx =>
      (mem_pySet _ _).mpr ((hset x).mp ((mem_pySet _ _).mp hx)))
  have h2 : pyDiff (pySet (fs.versionFiles ver)) (pySet fs.latestFiles) = [] :=
    pyDiff_eq_nil _ _ (fun x hx =>
      (mem_pySet _ _).mpr ((hset x).mpr ((mem_pySet _ _).mp hx)))
  have hsp := setPhaseErrors_eq_of_nil fs ver errors h1 h2
  have hmem : ∀ f, f ∈ pyInter (pySet (fs.versionFiles ver)) (pySet fs.latestFiles)
      → f ∈ fs.latestFiles := by
    intro f hf
    exact (mem_pySet _ _).mp ((mem_pyInter _ _ f).mp hf).2
  have hmis : (pyInter (pySet (fs.versionFiles ver)) (pySet fs.latestFiles)).filter
      (fun f => fs.readableBoth f
        && (fs.latestContent f != fs.versionContent ver f)) = [] := by
    rw [List.filter_eq_nil_iff]
    intro f hf
    have hl := hmem f hf
    rw [hsame f hl ((hset f).mp hl)]
    simp
  have herr : (pyInter (pySet (fs.versionFiles ver)) (pySet fs.latestFiles)).filter
      (fun f => !fs.readableBoth f) = [] := by
    rw [List.filter_eq_nil_iff]
    intro f hf
    have hl := hmem f hf
    rw [hread f hl ((hset f).mp hl)]
    simp
  simp only [comparePhase]
  split
  · rw [hsp]
  · rw [hmis]
    simp [hsp]

/-! ### Claims. -/

/-- C1 (counterexample): two files whose bytes differ only in the line
ending (`x\r\n` in `latest`, `x\n` in `1.0`) reach the mismatch loop, yet
text-mode `readlines()` coincide after universal-newline translation, the
unified diff is empty, and neither an error entry nor a logged diff is
produced — refuting the claim that every byte-wise difference yields both. -/
theorem validate_directory_crlf_no_error :
    crlfFS.latestContent "a.txt" ≠ crlfFS.versionContent "1.0" "a.txt" ∧
    "a.txt" ∈ crlfFS.latestFiles ∧ "a.txt" ∈ crlfFS.versionFiles "1.0" ∧
    (versionsOf crlfFS).map selectedVersion = some "1.0" ∧
    crlfFS.latestExists = true ∧
    crlfFS.versionDirExists "1.0" = true ∧
    crlfFS.readableBoth "a.txt" = true ∧
    (validate_directory "o" crlfFS []).errors = [] ∧
    (validate_directory "o" crlfFS []).logs = [] := by
  decide

/-- C1 (amended): for every common file whose byte contents differ AND
whose text-mode line contents (after universal-newline translation) also
differ, `validate_directory` appends an error entry naming both file paths
and logs the unified diff of the two files. -/
theorem validate_directory_mismatch_reported (p : String) (fs : DirFS)
    (errors : List String) (vs : List (List Nat × String)) (f : String)
    (hne : foldersOf fs ≠ []) (hvs : versionsOf fs = some vs)
    (hlat : fs.latestExists = true)
    (hver : fs.versionDirExists (selectedVersion vs) = true)
    (hfl : f ∈ fs.latestFiles) (hfr : f ∈ fs.versionFiles (selectedVersion vs))
    (hread : fs.readableBoth f = true)
    (hbytes : fs.latestContent f ≠ fs.versionContent (selectedVersion vs) f)
    (htext : universalNewlines (fs.latestContent f) ≠
      universalNewlines (fs.versionContent (selectedVersion vs) f)) :
    filesDifferentMsg (p ++ "/latest" ++ "/" ++ f)
        (p ++ "/" ++ selectedVersion vs ++ "/" ++ f) ∈
      (validate_directory p fs errors).errors ∧
    DiffLog.mk (p ++ "/latest" ++ "/" ++ f)
        (p ++ "/" ++ selectedVersion vs ++ "/" ++ f)
        (fs.latestContent f) (fs.versionContent (selectedVersion vs) f) ∈
      (validate_directory p fs errors).logs := by
  have hvd : validate_directory p fs errors
      = comparePhase p fs (selectedVersion vs) errors := by
    simp [validate_directory, hne, hvs, hlat, hver]
  rw [hvd]
  have hfc : f ∈ pyInter (pySet (fs.versionFiles (selectedVersion vs)))
      (pySet fs.latestFiles) :=
    (mem_pyInter _ _ f).mpr ⟨(mem_pySet _ _).mpr hfr, (mem_pySet _ _).mpr hfl⟩
  have hcne : pyInter (pySet (fs.versionFiles (selectedVersion vs)))
      (pySet fs.latestFiles) ≠ [] := List.ne_nil_of_mem hfc
  have hfm : f ∈ (pyInter (pySet (fs.versionFiles (selectedVersion vs)))
      (pySet fs.latestFiles)).filter
      (fun g => fs.readableBoth g
        && (fs.latestContent g != fs.versionContent (selectedVersion vs) g)) := by
    rw [List.mem_filter]
    refine ⟨hfc, ?_⟩
    rw [hread]
    simp [bne_iff_ne, hbytes]
  obtain ⟨h1, h2⟩ := foldl_diffStep_mem fs (selectedVersion vs)
    (p ++ "/latest") (p ++ "/" ++ selectedVersion vs) _
    (setPhaseErrors fs (selectedVersion vs) errors, []) f hfm htext
  simp only [comparePhase]
  rw [if_neg hcne]
  constructor
  · split
    · exact h1
    · exact List.mem_append.mpr (Or.inl h1)
  · exact h2

/-- C1 (amended) witness: with `x\r\n` against `y\n` for `a.txt`, the
error entry naming both paths is appended and the diff is logged. -/
theorem validate_directory_mismatch_reported_witness :
    filesDifferentMsg "o/latest/a.txt" "o/1.0/a.txt" ∈
      (validate_directory "o" mismatchFS []).errors ∧
    DiffLog.mk "o/latest/a.txt" "o/1.0/a.txt" "x\r\n" "y\n" ∈
      (validate_directory "o" mismatchFS []).logs := by
  have h := validate_directory_mismatch_reported "o" mismatchFS []
    [([1, 0], "1.0")] "a.txt"
    (by decide) (by decide) (by decide) (by decide) (by decide) (by decide)
    (by decide) (by decide) (by decide)
  exact h

/-- C2: with versioned folders present and parsed, a missing `latest`
appends exactly the one `can't find` error and returns normally (soft
error), while a present `latest` with a missing selected version directory
aborts through the `assert` with the error list unchanged. -/
theorem validate_directory_missing_latest_vs_version (p : String)
    (fs : DirFS) (errors : List String) (vs : List (List Nat × String))
    (hne : foldersOf fs ≠ []) (hvs : versionsOf fs = some vs) :
    (fs.latestExists = false →
      validate_directory p fs errors =
        ⟨DirStatus.ok, errors ++ [cantFindMsg (p ++ "/latest")], []⟩) ∧
    (fs.latestExists = true →
      fs.versionDirExists (selectedVersion vs) = false →
      validate_directory p fs errors = ⟨DirStatus.assertFail, errors, []⟩) := by
  constructor
  · intro hlat
    simp [validate_directory, hne, hvs, hlat]
  · intro hlat hver
    simp [validate_directory, hne, hvs, hlat, hver]

/-- C2 witness: concrete runs of both branches. -/
theorem validate_directory_missing_latest_vs_version_witness :
    (foldersOf noLatestFS ≠ [] ∧ noLatestFS.latestExists = false ∧
      validate_directory "o" noLatestFS [] =
        ⟨DirStatus.ok, [cantFindMsg ("o" ++ "/latest")], []⟩) ∧
    (foldersOf noRightFS ≠ [] ∧ noRightFS.latestExists = true ∧
      noRightFS.versionDirExists "1.0" = false ∧
      validate_directory "o" noRightFS [] =
        ⟨DirStatus.assertFail, [], []⟩) := by
  constructor
  · refine ⟨by decide, by decide, ?_⟩
    exact (validate_directory_missing_latest_vs_version "o" noLatestFS []
      [([1, 0], "1.0")] (by decide) (by decide)).1 (by decide)
  · refine ⟨by decide, by decide, by decide, ?_⟩
    exact (validate_directory_missing_latest_vs_version "o" noRightFS []
      [([1, 0], "1.0")] (by decide) (by decide)).2 (by decide) (by decide)

/-- C3: for the subdirectory names `1.0`, `2.3`, `10.0` in every order,
the version-precedence maximum `10.0` is selected (lexical string ordering
would pick `2.3`), and the selected name is the one whose directory the
existence check then queries: with only `10.0` answering, the run reaches
the comparison and ends with status `ok`. -/
theorem validate_directory_version_precedence :
    (versionsOf (versionChoiceFS ["1.0", "2.3", "10.0"])).map selectedVersion
        = some "10.0" ∧
    (versionsOf (versionChoiceFS ["1.0", "10.0", "2.3"])).map selectedVersion
        = some "10.0" ∧
    (versionsOf (versionChoiceFS ["2.3", "1.0", "10.0"])).map selectedVersion
        = some "10.0" ∧
    (versionsOf (versionChoiceFS ["2.3", "10.0", "1.0"])).map selectedVersion
        = some "10.0" ∧
    (versionsOf (versionChoiceFS ["10.0", "1.0", "2.3"])).map selectedVersion
        = some "10.0" ∧
    (versionsOf (versionChoiceFS ["10.0", "2.3", "1.0"])).map selectedVersion
        = some "10.0" ∧
    (validate_directory "o" (versionChoiceFS ["1.0", "2.3", "10.0"]) []).status
        = DirStatus.ok ∧
    (validate_directory "o" (versionChoiceFS ["1.0", "10.0", "2.3"]) []).status
        = DirStatus.ok ∧
    (validate_directory "o" (versionChoiceFS ["2.3", "1.0", "10.0"]) []).status
        = DirStatus.ok ∧
    (validate_directory "o" (versionChoiceFS ["2.3", "10.0", "1.0"]) []).status
        = DirStatus.ok ∧
    (validate_directory "o" (versionChoiceFS ["10.0", "1.0", "2.3"]) []).status
        = DirStatus.ok ∧
    (validate_directory "o" (versionChoiceFS ["10.0", "2.3", "1.0"]) []).status
        = DirStatus.ok := by
  decide

/-- C4 (counterexample): both directories hold exactly the file `a.txt`
with byte-identical contents, yet because the file cannot be read the
`cmpfiles` error branch appends a `couldn't check` entry — the error list
does not remain unchanged, refuting the claim as stated. -/
theorem validate_directory_identical_unreadable :
    unreadableFS.latestFiles = ["a.txt"] ∧
    unreadableFS.versionFiles "1.0" = ["a.txt"] ∧
    (versionsOf unreadableFS).map selectedVersion = some "1.0" ∧
    unreadableFS.latestContent "a.txt" = unreadableFS.versionContent "1.0" "a.txt" ∧
    unreadableFS.latestExists = true ∧
    unreadableFS.versionDirExists "1.0" = true ∧
    (validate_directory "o" unreadableFS []).errors
      = [couldntCheckMsg ["a.txt"]] := by
  decide

/-- C4 (amended): when `latest` and the selected version directory hold
the same set of file names and every shared file is byte-identical and
readable, the caller's error list is returned unchanged. -/
theorem validate_directory_identical_frame (p : String) (fs : DirFS)
    (errors : List String) (vs : List (List Nat × String))
    (hne : foldersOf fs ≠ []) (hvs : versionsOf fs = some vs)
    (hlat : fs.latestExists = true)
    (hver : fs.versionDirExists (selectedVersion vs) = true)
    (hset : ∀ f, f ∈ fs.latestFiles ↔ f ∈ fs.versionFiles (selectedVersion vs))
    (hread : ∀ f, f ∈ fs.latestFiles → f ∈ fs.versionFiles (selectedVersion vs) →
      fs.readableBoth f = true)
    (hsame : ∀ f, f ∈ fs.latestFiles → f ∈ fs.versionFiles (selectedVersion vs) →
      fs.latestContent f = fs.versionContent (selectedVersion vs) f) :
    (validate_directory p fs errors).errors = errors := by
  have hvd : validate_directory p fs errors
      = comparePhase p fs (selectedVersion vs) errors := by
    simp [validate_directory, hne, hvs, hlat, hver]
  rw [hvd, comparePhase_frame p fs (selectedVersion vs) errors hset hread hsame]

/-- C4 (amended) witness: byte-identical readable directories leave an
empty error list empty. -/
theorem validate_directory_identical_frame_witness :
    (validate_directory "o" identicalFS []).errors = [] :=
  validate_directory_identical_frame "o" identicalFS [] [([1, 0], "1.0")]
    (by decide) (by decide) (by decide) (by decide)
    (fun _ => Iff.rfl) (fun _ _ _ => rfl) (fun _ _ _ => rfl)

/-- C5: when no ancestor within the 5 examined levels holds `rules.shacl`,
`validate_shacl` reaches the engine call with no constraint graph and its
outcome is exactly the engine's default behaviour on a `None` graph — no
crash from the missing graph. -/
theorem validate_shacl_no_rules {G : Type} (env : ShaclEnv G) (fp : String)
    (h : findRulesDir env MAX_DEPTH fp = none) :
    (validate_shacl env fp).graphUsed = none ∧
    (validate_shacl env fp).outcome = engineOutcome env none := by
  have hg : graphFor env fp = none := by
    unfold graphFor
    rw [h]
    rfl
  constructor
  · simp only [validate_shacl]
    exact hg
  · simp only [validate_shacl]
    rw [hg]

/-- C5 witness: an environment with no rules file anywhere. -/
theorem validate_shacl_no_rules_witness :
    findRulesDir noRulesEnv MAX_DEPTH "/a/b" = none ∧
    (validate_shacl noRulesEnv "/a/b").graphUsed = none ∧
    (validate_shacl noRulesEnv "/a/b").outcome = engineOutcome noRulesEnv none := by
  have h : findRulesDir noRulesEnv MAX_DEPTH "/a/b" = none := by decide
  have h2 := validate_shacl_no_rules noRulesEnv "/a/b" h
  exact ⟨h, h2.1, h2.2⟩

/-- C6: when the engine does not raise, `validate_shacl` terminates the
process with exit code 1 exactly when the engine reports the file invalid,
and falls through to a normal return when it reports it valid. -/
theorem validate_shacl_exit_code {G : Type} (env : ShaclEnv G) (fp : String)
    (h : env.engineRaises (graphFor env fp) = false) :
    ((validate_shacl env fp).outcome = ShaclOutcome.exitsOne ↔
      env.engineValid (graphFor env fp) = false) ∧
    (env.engineValid (graphFor env fp) = true →
      (validate_shacl env fp).outcome = ShaclOutcome.returnsNormally) := by
  constructor
  · cases hval : env.engineValid (graphFor env fp) with
    | false => simp [validate_shacl, engineOutcome, h, hval]
    | true => simp [validate_shacl, engineOutcome, h, hval]
  · intro hv
    simp [validate_shacl, engineOutcome, h, hv]

/-- C6 witness: an invalid file exits with code 1; a valid one returns. -/
theorem validate_shacl_exit_code_witness :
    invalidFileEnv.engineRaises (graphFor invalidFileEnv "/a") = false ∧
    (validate_shacl invalidFileEnv "/a").outcome = ShaclOutcome.exitsOne ∧
    (validate_shacl noRulesEnv "/a").outcome = ShaclOutcome.returnsNormally := by
  have h1 := validate_shacl_exit_code invalidFileEnv "/a" (by decide)
  have h2 := validate_shacl_exit_code noRulesEnv "/a" (by decide)
  exact ⟨by decide, h1.1.mpr (by decide), h2.2 (by decide)⟩

/-- C7: a non-empty `latest`-only name set appends the `Only in latest/`
message naming those files, and symmetrically a non-empty version-only set
appends the `Only in {version}/` message naming that directory and files. -/
theorem validate_directory_only_in_messages (p : String) (fs : DirFS)
    (errors : List String) (vs : List (List Nat × String))
    (hne : foldersOf fs ≠ []) (hvs : versionsOf fs = some vs)
    (hlat : fs.latestExists = true)
    (hver : fs.versionDirExists (selectedVersion vs) = true) :
    (pyDiff (pySet fs.latestFiles)
        (pySet (fs.versionFiles (selectedVersion vs))) ≠ [] →
      onlyLatestMsg (pyDiff (pySet fs.latestFiles)
          (pySet (fs.versionFiles (selectedVersion vs)))) ∈
        (validate_directory p fs errors).errors) ∧
    (pyDiff (pySet (fs.versionFiles (selectedVersion vs)))
        (pySet fs.latestFiles) ≠ [] →
      onlyVersionMsg (selectedVersion vs)
          (pyDiff (pySet (fs.versionFiles (selectedVersion vs)))
            (pySet fs.latestFiles)) ∈
        (validate_directory p fs errors).errors) := by
  have hvd : validate_directory p fs errors
      = comparePhase p fs (selectedVersion vs) errors := by
    simp [validate_directory, hne, hvs, hlat, hver]
  rw [hvd]
  constructor
  · intro h
    exact (setPhaseErrors_le_comparePhase p fs (selectedVersion vs) errors).subset
      (mem_setPhaseErrors_onlyLatest fs (selectedVersion vs) errors h)
  · intro h
    exact (setPhaseErrors_le_comparePhase p fs (selectedVersion vs) errors).subset
      (mem_setPhaseErrors_onlyVersion fs (selectedVersion vs) errors h)

/-- C7 witness: `a.txt` only in `latest`, `b.txt` only in `1.0`. -/
theorem validate_directory_only_in_messages_witness :
    onlyLatestMsg ["a.txt"] ∈ (validate_directory "o" skewFS []).errors ∧
    onlyVersionMsg "1.0" ["b.txt"] ∈ (validate_directory "o" skewFS []).errors := by
  have h := validate_directory_only_in_messages "o" skewFS [] [([1, 0], "1.0")]
    (by decide) (by decide) (by decide) (by decide)
  exact ⟨h.1 (by decide), h.2 (by decide)⟩

/-- C8: when no subdirectories other than `latest` exist, exactly the one
`No versioned directories` error is appended and the call returns at once,
with nothing logged. -/
theorem validate_directory_no_versions (p : String) (fs : DirFS)
    (errors : List String) (h : foldersOf fs = []) :
    validate_directory p fs errors =
      ⟨DirStatus.ok, errors ++ [noVersionedMsg p], []⟩ := by
  simp [validate_directory, h]

/-- C8 witness: an ontology path holding only a `latest` directory. -/
theorem validate_directory_no_versions_witness :
    foldersOf onlyLatestDirFS = [] ∧
    validate_directory "o" onlyLatestDirFS [] =
      ⟨DirStatus.ok, [noVersionedMsg "o"], []⟩ :=
  ⟨by decide, validate_directory_no_versions "o" onlyLatestDirFS [] (by decide)⟩

/-- C9: on every execution path, including the early returns and the
assertion abort, the caller's error list is only appended to: the prior
list is a prefix of the list after the call. -/
theorem validate_directory_append_only (p : String) (fs : DirFS)
    (errors : List String) :
    errors <+: (validate_directory p fs errors).errors := by
  simp only [validate_directory]
  split
  · exact List.prefix_append _ _
  · split
    · exact List.prefix_refl _
    · split
      · split
        · exact comparePhase_extends _ _ _ _
        · exact List.prefix_refl _
      · exact List.prefix_append _ _

/-- C10: `get_shacl_graph` raises `ValueError` exactly when the path is
not absolute; on an absolute path it parses and returns the graph. -/
theorem get_shacl_graph_absolute {G : Type} (parse : String → G) (p : String) :
    (pathIsAbsolute p = true →
      get_shacl_graph parse p = Except.ok (parse p)) ∧
    (pathIsAbsolute p = false →
      get_shacl_graph parse p = Except.error (notAbsoluteMsg p)) := by
  constructor
  · intro h
    simp [get_shacl_graph, h]
  · intro h
    simp [get_shacl_graph, h]

/-- C10 witness: an absolute and a relative rules path. -/
theorem get_shacl_graph_absolute_witness :
    (pathIsAbsolute "/srv/rules.shacl" = true ∧
      get_shacl_graph (fun _ => 0) "/srv/rules.shacl" = Except.ok 0) ∧
    (pathIsAbsolute "rules.shacl" = false ∧
      get_shacl_graph (fun _ => 0) "rules.shacl" =
        Except.error (notAbsoluteMsg "rules.shacl")) := by
  constructor
  · exact ⟨by decide,
      (get_shacl_graph_absolute (fun _ => 0) "/srv/rules.shacl").1 (by decide)⟩
  · exact ⟨by decide,
      (get_shacl_graph_absolute (fun _ => 0) "rules.shacl").2 (by decide)⟩

end DatiPlayground
